import Mathlib

/-!
Verification of the growth/financial metrics module
(`frontend/src/utils/growth.ts`) of the Compayre repository.

The module is pure numeric code over JavaScript numbers. We use an
exact-real embedding: a JavaScript number is NaN, an infinity, or a
finite value, and finite values are modelled as exact rationals (the
final growth value, produced by `Math.pow`, lives in `ℝ`). Under exact
arithmetic no operation in this module can produce a NaN or an
infinity from finite inputs, so `Number.isFinite` on computed results
is the constantly-true predicate (`isFiniteReal` below).
-/

/-- A JavaScript number: NaN, an infinity, or a finite value (an exact rational). -/
inductive JSNum where
  | nan : JSNum
  | posInf : JSNum
  | negInf : JSNum
  | finite : ℚ → JSNum
deriving DecidableEq

/-- `Number.isFinite` on a raw JavaScript number. -/
def JSNum.isFinite : JSNum → Bool
  | JSNum.finite _ => true
  | _ => false

/-- The `YearValueEntry` interface of growth.ts. An element of the input
array may also be `null`/`undefined` (the code guards with `!entry`),
which we model by wrapping entries in `Option`. -/
structure YearValueEntry where
  year : JSNum
  value : JSNum
deriving DecidableEq

/-- `MAX_YEARS_DEFAULT` of growth.ts. -/
def MAX_YEARS_DEFAULT : ℤ := 5

/-- The body of the `forEach` callback in `sanitizeEntries`: `none` when the
entry is skipped (`!entry`, non-finite year or value, or `value <= 0`),
otherwise the `(year, value)` pair that is added into the year map. -/
def keptPair (e : Option YearValueEntry) : Option (ℚ × ℚ) :=
  match e with
  | none => none
  | some entry =>
    match entry.year, entry.value with
    | JSNum.finite y, JSNum.finite v => if v ≤ 0 then none else some (y, v)
    | _, _ => none

/-- `yearMap.set(entry.year, current + entry.value)` on an insertion-ordered
association list, mirroring a JavaScript `Map`: an existing key keeps its
position and accumulates the value, a new key is appended at the end. -/
def updateYearMap : List (ℚ × ℚ) → ℚ → ℚ → List (ℚ × ℚ)
  | [], y, v => [(y, v)]
  | (k, w) :: rest, y, v =>
    if k = y then (k, w + v) :: rest else (k, w) :: updateYearMap rest y v

/-- One step of the `forEach` loop of `sanitizeEntries`. -/
def insertStep (m : List (ℚ × ℚ)) (e : Option YearValueEntry) : List (ℚ × ℚ) :=
  match keptPair e with
  | none => m
  | some p => updateYearMap m p.1 p.2

/-- `yearMap.get(y)` on the association list. -/
def lookupYear : List (ℚ × ℚ) → ℚ → Option ℚ
  | [], _ => none
  | (k, w) :: rest, y => if k = y then some w else lookupYear rest y

/-- The keys of the year map. -/
def keysOf (m : List (ℚ × ℚ)) : List ℚ := m.map Prod.fst

/-- The comparator `(a, b) => a.year - b.year` of `sanitizeEntries`, as the
weak order it induces. The keys of the year map are pairwise distinct, so
sorting by this weak order determines the array uniquely. -/
def yearLE (a b : ℚ × ℚ) : Prop := a.1 ≤ b.1

/-- Strict version of `yearLE`; the sanitized series is sorted by it. -/
def yearLT (a b : ℚ × ℚ) : Prop := a.1 < b.1

instance : DecidableRel yearLE := fun a b => inferInstanceAs (Decidable (a.1 ≤ b.1))

instance : IsTotal (ℚ × ℚ) yearLE := ⟨fun a b => le_total a.1 b.1⟩

instance : IsTrans (ℚ × ℚ) yearLE := ⟨fun _ _ _ h h' => le_trans h h'⟩

instance : IsAntisymm (ℚ × ℚ) yearLT := ⟨fun _ _ h h' => absurd h' (lt_asymm h)⟩

/-- `sanitizeEntries` of growth.ts: accumulate the year map in input order,
then sort ascending by year. -/
def sanitizeEntries (entries : List (Option YearValueEntry)) : List (ℚ × ℚ) :=
  List.insertionSort yearLE (entries.foldl insertStep [])

/-- `Number.isFinite` applied to a computed real value: in the exact-real
embedding every real number is finite (NaN/infinity only arise from
floating-point overflow or invalid operations, which the guarded exact
computation never performs). -/
def isFiniteReal (_ : ℝ) : Bool := true

/-- Lines 36–62 of growth.ts: the computation on the window `usable`
(the guard `usable.length < 2`, the `first`/`last` selection, the value
guards, `spanYears`, `ratio` and the `Math.pow` step). -/
noncomputable def growthFromWindow (usable : List (ℚ × ℚ)) : Option ℝ :=
  match usable with
  | [] => none
  | first :: rest =>
    if rest = [] then
      none
    else
      let last := rest.getLastD first
      if first.2 ≤ 0 ∨ last.2 ≤ 0 then
        none
      else
        let spanYears : ℚ := max (last.1 - first.1) (((first :: rest).length - 1 : ℕ) : ℚ)
        if spanYears ≤ 0 then
          none
        else
          let ratio : ℚ := last.2 / first.2
          if ratio ≤ 0 then
            none
          else
            let growth : ℝ := (ratio : ℝ) ^ ((1 : ℝ) / (spanYears : ℝ)) - 1
            if isFiniteReal growth then some growth else none

/-- `computeCfsnGrowth` of growth.ts. `normalized.slice(-k)` for `k ≥ 1` is
the suffix of the last `min k length` elements, i.e. `drop (length - k)`
with truncating natural subtraction. -/
noncomputable def computeCfsnGrowth (entries : List (Option YearValueEntry))
    (maxYears : ℤ) : Option ℝ :=
  let normalized := sanitizeEntries entries
  if normalized.length < 2 then
    none
  else
    growthFromWindow (normalized.drop (normalized.length - (max maxYears 2).toNat))

/-- The window `usable = normalized.slice(-Math.max(maxYears, 2))` of
`computeCfsnGrowth`, named so that theorems can speak about it. -/
def windowOf (entries : List (Option YearValueEntry)) (maxYears : ℤ) : List (ℚ × ℚ) :=
  (sanitizeEntries entries).drop
    ((sanitizeEntries entries).length - (max maxYears 2).toNat)

/-- `computeCAGR` of growth.ts: `computeCfsnGrowth` at the default window. -/
noncomputable def computeCAGR (entries : List (Option YearValueEntry)) : Option ℝ :=
  computeCfsnGrowth entries MAX_YEARS_DEFAULT

/-- The digits of `n % 10^d`, zero-padded to exactly `d` digits. -/
def fracDigitsStr : ℕ → ℕ → String
  | _, 0 => ""
  | n, Nat.succ d => fracDigitsStr (n / 10) d ++ toString (n % 10)

/-- Decimal rendering of the integer `n` (≥ 0 in all uses) scaled by `10^d`,
with exactly `d` fraction digits: the output format of `toFixed(d)`. -/
def fixedOfInt (n : ℤ) (d : ℕ) : String :=
  toString (n.toNat / 10 ^ d) ++
    (if d = 0 then "" else "." ++ fracDigitsStr (n.toNat % 10 ^ d) d)

/-- `x.toFixed(d)` for a non-negative exact value `x`: ECMA-262 specifies the
integer `n` minimizing `|n / 10^d - x|`, ties to the larger `n`, which for
`x ≥ 0` is `⌊x·10^d + 1/2⌋`. Rational-input version (computable). -/
def toFixedQ (q : ℚ) (d : ℕ) : String :=
  fixedOfInt ⌊q * 10 ^ d + 1 / 2⌋ d

/-- `x.toFixed(d)` for a non-negative real `x` (same rounding rule). -/
noncomputable def toFixedR (x : ℝ) (d : ℕ) : String :=
  fixedOfInt ⌊x * 10 ^ d + 1 / 2⌋ d

/-- `formatGrowthPercentage` of growth.ts. In the exact-real embedding the
two `Number.isFinite` guards are `isFiniteReal`. -/
noncomputable def formatGrowthPercentage (growth : Option ℝ)
    (fractionDigits : ℕ) : Option String :=
  match growth with
  | none => none
  | some g =>
    if !(isFiniteReal g) then
      none
    else
      let percentage := g * 100
      if !(isFiniteReal percentage) then
        none
      else
        some ((if 0 ≤ percentage then "" else "-") ++
          toFixedR |percentage| fractionDigits ++ "%")

/-- `formatGrowthPercentage` at its default `fractionDigits = 1`. -/
noncomputable def formatGrowthPercentageD (growth : Option ℝ) : Option String :=
  formatGrowthPercentage growth 1

/-! ## Characterization of sanitization (spec side)

The spec describes sanitization pointwise: an entry survives when its year
and value are finite and its value is positive, and surviving values are
summed per year. The following definitions state that description directly,
to be compared with `sanitizeEntries`. -/

/-- The value this entry contributes to year `y`: its value if it survives
sanitization and carries year `y`, otherwise `0`. -/
def contribOf (e : Option YearValueEntry) (y : ℚ) : ℚ :=
  match keptPair e with
  | none => 0
  | some p => if p.1 = y then p.2 else 0

/-- Whether this entry survives sanitization with year `y`. -/
def keepsYear (e : Option YearValueEntry) (y : ℚ) : Bool :=
  match keptPair e with
  | none => false
  | some p => decide (p.1 = y)

/-- The summed value of all surviving entries of year `y` (the spec's
"sum values sharing the same year"). -/
def yearTotal (entries : List (Option YearValueEntry)) (y : ℚ) : ℚ :=
  (entries.map (fun e => contribOf e y)).sum

/-- Whether some entry survives sanitization with year `y`. -/
def yearKeptB (entries : List (Option YearValueEntry)) (y : ℚ) : Bool :=
  entries.any (fun e => keepsYear e y)

/-! ## Lemmas about the year map fold -/

theorem keptPair_pos {e : Option YearValueEntry} {p : ℚ × ℚ}
    (h : keptPair e = some p) : 0 < p.2 := by
  unfold keptPair at h
  split at h
  · exact absurd h (by simp)
  · split at h
    · next y v =>
      split at h
      · exact absurd h (by simp)
      · next hv =>
        cases h
        simpa using lt_of_not_le hv
    · exact absurd h (by simp)

theorem keptPair_of_keepsYear {e : Option YearValueEntry} {y : ℚ}
    (h : keepsYear e y = true) : ∃ v, keptPair e = some (y, v) ∧ 0 < v := by
  unfold keepsYear at h
  cases hk : keptPair e with
  | none => rw [hk] at h; exact absurd h (by simp)
  | some p =>
    rw [hk] at h
    have hy : p.1 = y := by simpa using h
    subst hy
    refine ⟨p.2, ?_, keptPair_pos hk⟩
    rw [Prod.mk.eta]

theorem contribOf_nonneg (e : Option YearValueEntry) (y : ℚ) :
    0 ≤ contribOf e y := by
  unfold contribOf
  cases hk : keptPair e with
  | none => simp
  | some p =>
    by_cases hy : p.1 = y
    · simpa [hy] using le_of_lt (keptPair_pos hk)
    · simp [hy]

theorem contribOf_pos_of_keeps {e : Option YearValueEntry} {y : ℚ}
    (h : keepsYear e y = true) : 0 < contribOf e y := by
  obtain ⟨v, hv, hpos⟩ := keptPair_of_keepsYear h
  unfold contribOf
  rw [hv]
  simpa using hpos

theorem contribOf_eq_zero_of_not_keeps {e : Option YearValueEntry} {y : ℚ}
    (h : keepsYear e y = false) : contribOf e y = 0 := by
  unfold contribOf
  unfold keepsYear at h
  cases hk : keptPair e with
  | none => rfl
  | some p =>
    rw [hk] at h
    have hy : ¬ p.1 = y := by simpa using h
    simp [hy]

theorem lookupYear_updateYearMap (m : List (ℚ × ℚ)) (y v y' : ℚ) :
    lookupYear (updateYearMap m y v) y' =
      if y' = y then some ((lookupYear m y).getD 0 + v) else lookupYear m y' := by
  induction m with
  | nil =>
    by_cases h : y' = y
    · subst h; simp [updateYearMap, lookupYear]
    · simp [updateYearMap, lookupYear, h, Ne.symm h]
  | cons p rest ih =>
    obtain ⟨k, w⟩ := p
    by_cases hk : k = y
    · subst hk
      by_cases h : y' = k
      · subst h; simp [updateYearMap, lookupYear]
      · simp [updateYearMap, lookupYear, h, Ne.symm h]
    · by_cases h : y' = k
      · subst h
        have hy : ¬ y' = y := fun hh => hk (hh ▸ rfl)
        simp [updateYearMap, lookupYear, hk, hy]
      · simp [updateYearMap, lookupYear, hk, Ne.symm h, ih]

@[simp] theorem keysOf_nil : keysOf [] = [] := rfl

@[simp] theorem keysOf_cons (p : ℚ × ℚ) (m : List (ℚ × ℚ)) :
    keysOf (p :: m) = p.1 :: keysOf m := rfl

theorem keysOf_updateYearMap (m : List (ℚ × ℚ)) (y v : ℚ) :
    keysOf (updateYearMap m y v) =
      if y ∈ keysOf m then keysOf m else keysOf m ++ [y] := by
  induction m with
  | nil => simp [updateYearMap]
  | cons p rest ih =>
    obtain ⟨k, w⟩ := p
    by_cases hk : k = y
    · subst hk; simp [updateYearMap]
    · have hyk : ¬ y = k := Ne.symm hk
      by_cases hmem : y ∈ keysOf rest
      · simp [updateYearMap, hk, hyk, hmem, ih]
      · simp [updateYearMap, hk, hyk, hmem, ih]

theorem keysOf_nodup_updateYearMap (m : List (ℚ × ℚ)) (y v : ℚ)
    (h : (keysOf m).Nodup) : (keysOf (updateYearMap m y v)).Nodup := by
  rw [keysOf_updateYearMap]
  split
  · exact h
  · next hmem =>
    rw [List.nodup_append]
    refine ⟨h, List.nodup_singleton y, ?_⟩
    intro a ha hay
    rw [List.mem_singleton] at hay
    subst hay
    exact hmem ha

theorem lookupYear_insertStep (m : List (ℚ × ℚ)) (e : Option YearValueEntry) (y : ℚ) :
    lookupYear (insertStep m e) y =
      if keepsYear e y then some ((lookupYear m y).getD 0 + contribOf e y)
      else lookupYear m y := by
  unfold insertStep keepsYear contribOf
  cases hk : keptPair e with
  | none => simp
  | some p =>
    rw [lookupYear_updateYearMap]
    by_cases hy : p.1 = y
    · simp [hy]
    · have hy' : ¬ y = p.1 := fun hh => hy hh.symm
      simp [hy, hy']

theorem lookupYear_foldl (entries : List (Option YearValueEntry))
    (m : List (ℚ × ℚ)) (y : ℚ) :
    lookupYear (entries.foldl insertStep m) y =
      if (lookupYear m y).isSome || yearKeptB entries y then
        some ((lookupYear m y).getD 0 + yearTotal entries y)
      else none := by
  induction entries generalizing m with
  | nil =>
    cases h : lookupYear m y <;> simp [yearTotal, yearKeptB, h]
  | cons e rest ih =>
    rw [List.foldl_cons, ih, lookupYear_insertStep]
    by_cases hk : keepsYear e y
    · simp [hk, yearTotal, yearKeptB, List.any_cons, add_assoc]
    · have hz : contribOf e y = 0 :=
        contribOf_eq_zero_of_not_keeps (by simpa using hk)
      simp [hk, yearTotal, yearKeptB, List.any_cons, hz]

theorem keysOf_nodup_foldl (entries : List (Option YearValueEntry))
    (m : List (ℚ × ℚ)) (h : (keysOf m).Nodup) :
    (keysOf (entries.foldl insertStep m)).Nodup := by
  induction entries generalizing m with
  | nil => exact h
  | cons e rest ih =>
    rw [List.foldl_cons]
    apply ih
    unfold insertStep
    cases hk : keptPair e with
    | none => exact h
    | some p => exact keysOf_nodup_updateYearMap _ _ _ h

theorem mem_iff_lookupYear {m : List (ℚ × ℚ)} (h : (keysOf m).Nodup) (y v : ℚ) :
    (y, v) ∈ m ↔ lookupYear m y = some v := by
  induction m with
  | nil => simp [lookupYear]
  | cons p rest ih =>
    obtain ⟨k, w⟩ := p
    rw [keysOf_cons, List.nodup_cons] at h
    obtain ⟨hknot, hnd⟩ := h
    by_cases hk : k = y
    · subst hk
      constructor
      · intro hmem
        rcases List.mem_cons.mp hmem with heq | hmem'
        · have hvw : v = w := (Prod.ext_iff.mp heq).2
          subst hvw
          simp [lookupYear]
        · exact absurd (List.mem_map.mpr ⟨(k, v), hmem', rfl⟩) hknot
      · intro hl
        have hw : w = v := by simpa [lookupYear] using hl
        subst hw
        exact List.mem_cons_self _ _
    · have hky : ¬ (y, v) = (k, w) := fun hh => hk (congrArg Prod.fst hh).symm
      simp only [lookupYear, if_neg hk, List.mem_cons, hky, false_or]
      exact ih hnd

/-! ## Characterization of `sanitizeEntries` -/

theorem sanitizeEntries_perm_foldl (entries : List (Option YearValueEntry)) :
    List.Perm (sanitizeEntries entries) (entries.foldl insertStep []) :=
  List.perm_insertionSort _ _

theorem keysOf_nodup_sanitize (entries : List (Option YearValueEntry)) :
    (keysOf (sanitizeEntries entries)).Nodup := by
  have hperm : List.Perm (keysOf (sanitizeEntries entries))
      (keysOf (entries.foldl insertStep [])) :=
    (sanitizeEntries_perm_foldl entries).map Prod.fst
  exact hperm.nodup_iff.mpr (keysOf_nodup_foldl _ _ (by simp))

/-- Two pairwise facts about one list combine pointwise. -/
theorem pairwiseAnd {α : Type*} {R S : α → α → Prop} {l : List α}
    (h1 : l.Pairwise R) (h2 : l.Pairwise S) :
    l.Pairwise fun a b => R a b ∧ S a b := by
  induction l with
  | nil => exact List.Pairwise.nil
  | cons a t ih =>
    rcases List.pairwise_cons.mp h1 with ⟨h1a, h1t⟩
    rcases List.pairwise_cons.mp h2 with ⟨h2a, h2t⟩
    exact List.pairwise_cons.mpr ⟨fun b hb => ⟨h1a b hb, h2a b hb⟩, ih h1t h2t⟩

/-- Membership in the sanitized series: exactly the surviving years, each
with the sum of the surviving values of that year. -/
theorem mem_sanitizeEntries (entries : List (Option YearValueEntry)) (y v : ℚ) :
    (y, v) ∈ sanitizeEntries entries ↔
      yearKeptB entries y = true ∧ v = yearTotal entries y := by
  rw [(sanitizeEntries_perm_foldl entries).mem_iff,
    mem_iff_lookupYear (keysOf_nodup_foldl _ _ (by simp)) y v,
    lookupYear_foldl]
  cases hk : yearKeptB entries y
  · simp [hk, lookupYear]
  · simp [hk, lookupYear, eq_comm]

/-- The sanitized series is strictly ascending by year. -/
theorem sanitizeEntries_sorted (entries : List (Option YearValueEntry)) :
    (sanitizeEntries entries).Pairwise yearLT := by
  have hs : List.Sorted yearLE (sanitizeEntries entries) :=
    List.sorted_insertionSort _ _
  have hne : (sanitizeEntries entries).Pairwise (fun a b : ℚ × ℚ => a.1 ≠ b.1) :=
    List.pairwise_map.mp (keysOf_nodup_sanitize entries)
  exact (pairwiseAnd hs hne).imp fun h => lt_of_le_of_ne h.1 h.2

/-- Every value in the sanitized series is positive. -/
theorem yearTotal_pos {entries : List (Option YearValueEntry)} {y : ℚ}
    (h : yearKeptB entries y = true) : 0 < yearTotal entries y := by
  rw [yearKeptB, List.any_eq_true] at h
  obtain ⟨e, he, hkeep⟩ := h
  have h1 : 0 < contribOf e y := contribOf_pos_of_keeps hkeep
  have h2 : contribOf e y ≤ yearTotal entries y := by
    apply List.single_le_sum
    · intro x hx
      obtain ⟨e', _, rfl⟩ := List.mem_map.mp hx
      exact contribOf_nonneg e' y
    · exact List.mem_map.mpr ⟨e, he, rfl⟩
  linarith

theorem sanitizeEntries_pos (entries : List (Option YearValueEntry)) :
    ∀ p ∈ sanitizeEntries entries, 0 < p.2 := by
  intro p hp
  obtain ⟨y, v⟩ := p
  rw [mem_sanitizeEntries] at hp
  obtain ⟨hk, rfl⟩ := hp
  exact yearTotal_pos hk

/-! ## The window and the growth computation -/

theorem getLastD_mem_cons {α : Type*} (l : List α) (d : α) :
    l.getLastD d ∈ d :: l := by
  induction l generalizing d with
  | nil => simp [List.getLastD]
  | cons a t ih =>
    rw [List.getLastD_cons]
    exact List.mem_cons.mpr (Or.inr (ih a))

theorem computeCfsnGrowth_def (entries : List (Option YearValueEntry)) (maxYears : ℤ) :
    computeCfsnGrowth entries maxYears =
      if (sanitizeEntries entries).length < 2 then none
      else growthFromWindow (windowOf entries maxYears) := rfl

theorem windowOf_length (entries : List (Option YearValueEntry)) (maxYears : ℤ) :
    (windowOf entries maxYears).length =
      min (max maxYears 2).toNat (sanitizeEntries entries).length := by
  unfold windowOf
  rw [List.length_drop]
  omega

theorem two_le_windowOf_length {entries : List (Option YearValueEntry)}
    (maxYears : ℤ) (h2 : 2 ≤ (sanitizeEntries entries).length) :
    2 ≤ (windowOf entries maxYears).length := by
  rw [windowOf_length]
  have hk : 2 ≤ (max maxYears 2).toNat := by
    have := le_max_right maxYears 2
    omega
  omega

theorem windowOf_pairwise (entries : List (Option YearValueEntry)) (maxYears : ℤ) :
    (windowOf entries maxYears).Pairwise yearLT :=
  (sanitizeEntries_sorted entries).sublist (List.drop_sublist _ _)

theorem windowOf_pos (entries : List (Option YearValueEntry)) (maxYears : ℤ) :
    ∀ p ∈ windowOf entries maxYears, 0 < p.2 :=
  fun p hp => sanitizeEntries_pos entries p (List.drop_subset _ _ hp)

/-- On a window of length ≥ 2 with positive first and last values, the
growth computation reaches the `Math.pow` step and every guard passes. -/
theorem growthFromWindow_eq (f : ℚ × ℚ) (rest : List (ℚ × ℚ)) (hne : rest ≠ [])
    (hf : 0 < f.2) (hl : 0 < (rest.getLastD f).2) :
    growthFromWindow (f :: rest) =
      some ((((rest.getLastD f).2 / f.2 : ℚ) : ℝ) ^
        ((1 : ℝ) / ((max ((rest.getLastD f).1 - f.1) ((rest.length : ℚ)) : ℚ) : ℝ)) - 1) := by
  have hlen : (0 : ℚ) < (rest.length : ℚ) := by
    have : 0 < rest.length := List.length_pos.mpr hne
    exact_mod_cast this
  simp only [growthFromWindow, List.length_cons, Nat.succ_sub_one]
  split_ifs with h1 h2 h3 h4 h5
  · exact absurd h1 hne
  · rcases h2 with h2 | h2 <;> linarith
  · have : (0 : ℚ) < max ((rest.getLastD f).1 - f.1) ((rest.length : ℚ)) :=
      lt_of_lt_of_le hlen (le_max_right _ _)
    linarith
  · have : 0 < (rest.getLastD f).2 / f.2 := div_pos hl hf
    linarith
  · rfl
  · exact absurd rfl h5

/-- A list of length ≥ 2 splits as a head and a nonempty tail. -/
theorem exists_cons_of_two_le {α : Type*} {l : List α} (h : 2 ≤ l.length) :
    ∃ f rest, l = f :: rest ∧ rest ≠ [] := by
  cases l with
  | nil => simp at h
  | cons f rest =>
    cases rest with
    | nil => simp at h
    | cons b t => exact ⟨f, b :: t, rfl, by simp⟩

/-- When the sanitized series has at least two entries, `computeCfsnGrowth`
passes every guard and returns the exact windowed CAGR formula. -/
theorem computeCfsnGrowth_formula (entries : List (Option YearValueEntry))
    (maxYears : ℤ) (h2 : 2 ≤ (sanitizeEntries entries).length) :
    ∃ f rest, windowOf entries maxYears = f :: rest ∧ rest ≠ [] ∧
      0 < f.2 ∧ 0 < (rest.getLastD f).2 ∧
      computeCfsnGrowth entries maxYears =
        some ((((rest.getLastD f).2 / f.2 : ℚ) : ℝ) ^
          ((1 : ℝ) /
            ((max ((rest.getLastD f).1 - f.1) ((rest.length : ℚ)) : ℚ) : ℝ)) - 1) := by
  obtain ⟨f, rest, hw, hne⟩ :=
    exists_cons_of_two_le (two_le_windowOf_length maxYears h2)
  have hfmem : f ∈ windowOf entries maxYears := by
    rw [hw]; exact List.mem_cons_self _ _
  have hlmem : rest.getLastD f ∈ windowOf entries maxYears := by
    rw [hw]; exact getLastD_mem_cons rest f
  have hf : 0 < f.2 := windowOf_pos entries maxYears f hfmem
  have hl : 0 < (rest.getLastD f).2 := windowOf_pos entries maxYears _ hlmem
  refine ⟨f, rest, hw, hne, hf, hl, ?_⟩
  rw [computeCfsnGrowth_def, if_neg (not_lt.mpr h2), hw,
    growthFromWindow_eq f rest hne hf hl]

/-! ## Concrete inputs from the spec's scenarios -/

/-- An entry with finite year and value. -/
def entryFV (y v : ℚ) : Option YearValueEntry :=
  some ⟨JSNum.finite y, JSNum.finite v⟩

/-- `[{year:2020,value:100},{year:2020,value:50},{year:2021,value:300}]`. -/
def exDup : List (Option YearValueEntry) :=
  [entryFV 2020 100, entryFV 2020 50, entryFV 2021 300]

/-- `[{year:2021,value:1000},{year:2022,value:1100},{year:2023,value:1210}]`. -/
def exE2E : List (Option YearValueEntry) :=
  [entryFV 2021 1000, entryFV 2022 1100, entryFV 2023 1210]

/-- `[{year:2020,value:-50}]`. -/
def exNeg : List (Option YearValueEntry) := [entryFV 2020 (-50)]

/-- Two years with the identical value 5. -/
def exConst : List (Option YearValueEntry) := [entryFV 2020 5, entryFV 2021 5]

/-- Six years: value 1 in 2015, value 100 in 2016–2020. The 5-year window
excludes 2015, so the windowed growth (0) differs from the textbook
full-period CAGR. -/
def exLong : List (Option YearValueEntry) :=
  [entryFV 2015 1, entryFV 2016 100, entryFV 2017 100, entryFV 2018 100,
   entryFV 2019 100, entryFV 2020 100]

theorem sanitize_exDup : sanitizeEntries exDup = [(2020, 150), (2021, 300)] := by
  norm_num [sanitizeEntries, exDup, entryFV, insertStep, keptPair, updateYearMap,
    List.insertionSort, List.orderedInsert, yearLE]

theorem sanitize_exE2E :
    sanitizeEntries exE2E = [(2021, 1000), (2022, 1100), (2023, 1210)] := by
  norm_num [sanitizeEntries, exE2E, entryFV, insertStep, keptPair, updateYearMap,
    List.insertionSort, List.orderedInsert, yearLE]

theorem sanitize_exNeg : sanitizeEntries exNeg = [] := by
  norm_num [sanitizeEntries, exNeg, entryFV, insertStep, keptPair, updateYearMap,
    List.insertionSort, List.orderedInsert, yearLE]

theorem sanitize_exConst : sanitizeEntries exConst = [(2020, 5), (2021, 5)] := by
  norm_num [sanitizeEntries, exConst, entryFV, insertStep, keptPair, updateYearMap,
    List.insertionSort, List.orderedInsert, yearLE]

theorem sanitize_exLong :
    sanitizeEntries exLong = [(2015, 1), (2016, 100), (2017, 100), (2018, 100),
      (2019, 100), (2020, 100)] := by
  norm_num [sanitizeEntries, exLong, entryFV, insertStep, keptPair, updateYearMap,
    List.insertionSort, List.orderedInsert, yearLE]

theorem window_exDup : windowOf exDup 5 = [(2020, 150), (2021, 300)] := by
  unfold windowOf
  rw [sanitize_exDup]
  norm_num

theorem window_exE2E :
    windowOf exE2E 5 = [(2021, 1000), (2022, 1100), (2023, 1210)] := by
  unfold windowOf
  rw [sanitize_exE2E]
  norm_num

theorem window_exLong :
    windowOf exLong 5 = [(2016, 100), (2017, 100), (2018, 100),
      (2019, 100), (2020, 100)] := by
  unfold windowOf
  rw [sanitize_exLong]
  norm_num [List.drop]

theorem compute_exDup : computeCfsnGrowth exDup 5 = some 1 := by
  rw [computeCfsnGrowth_def, if_neg (by rw [sanitize_exDup]; norm_num), window_exDup,
    growthFromWindow_eq (2020, 150) [(2021, 300)] (by simp) (by norm_num)
      (by norm_num [List.getLastD])]
  norm_num [List.getLastD]

theorem compute_exE2E : computeCfsnGrowth exE2E 5 = some (1 / 10 : ℝ) := by
  rw [computeCfsnGrowth_def, if_neg (by rw [sanitize_exE2E]; norm_num), window_exE2E,
    growthFromWindow_eq (2021, 1000) [(2022, 1100), (2023, 1210)] (by simp)
      (by norm_num) (by norm_num [List.getLastD])]
  norm_num [List.getLastD]
  rw [show ((121 : ℝ) / 100) = (11 / 10 : ℝ) ^ (2 : ℕ) by norm_num]
  rw [show ((1 : ℝ) / 2) = ((2 : ℕ) : ℝ)⁻¹ by norm_num]
  rw [Real.pow_rpow_inv_natCast (by norm_num) (by norm_num)]
  norm_num

/-! ## Formatter lemmas -/

theorem stringEmptyAppend (s : String) : "" ++ s = s := by
  cases s
  rfl

theorem toFixedR_ratCast (q : ℚ) (d : ℕ) : toFixedR (q : ℝ) d = toFixedQ q d := by
  unfold toFixedR toFixedQ
  congr 1
  rw [show ((q : ℝ) * 10 ^ d + 1 / 2) = ((q * 10 ^ d + 1 / 2 : ℚ) : ℝ) by push_cast; ring]
  exact Rat.floor_cast _

theorem formatGrowthPercentage_eq_nonneg (g : ℝ) (d : ℕ) (h : 0 ≤ g) :
    formatGrowthPercentage (some g) d = some (toFixedR |g * 100| d ++ "%") := by
  unfold formatGrowthPercentage
  have h100 : (0 : ℝ) ≤ g * 100 := mul_nonneg h (by norm_num)
  simp [isFiniteReal, h100, stringEmptyAppend]

theorem formatGrowthPercentage_eq_neg (g : ℝ) (d : ℕ) (h : g < 0) :
    formatGrowthPercentage (some g) d = some ("-" ++ toFixedR |g * 100| d ++ "%") := by
  unfold formatGrowthPercentage
  have h100 : ¬ (0 : ℝ) ≤ g * 100 := not_le.mpr (mul_neg_of_neg_of_pos h (by norm_num))
  simp [isFiniteReal, h100]

theorem toFixedQ_ten : toFixedQ 10 1 = "10.0" := by
  unfold toFixedQ
  rw [show ⌊(10 : ℚ) * 10 ^ 1 + 1 / 2⌋ = (100 : ℤ) by norm_num [Rat.floor_def]]
  decide

theorem toFixedQ_twelvePointThree : toFixedQ (123 / 10) 1 = "12.3" := by
  unfold toFixedQ
  rw [show ⌊(123 / 10 : ℚ) * 10 ^ 1 + 1 / 2⌋ = (123 : ℤ) by norm_num [Rat.floor_def]]
  decide

theorem toFixedQ_five : toFixedQ 5 1 = "5.0" := by
  unfold toFixedQ
  rw [show ⌊(5 : ℚ) * 10 ^ 1 + 1 / 2⌋ = (50 : ℤ) by norm_num [Rat.floor_def]]
  decide

theorem format_tenth : formatGrowthPercentage (some ((1 : ℝ) / 10)) 1 = some "10.0%" := by
  rw [formatGrowthPercentage_eq_nonneg _ _ (by norm_num)]
  rw [show |(1 : ℝ) / 10 * 100| = ((10 : ℚ) : ℝ) by push_cast; norm_num]
  rw [toFixedR_ratCast, toFixedQ_ten]
  rfl

theorem format_pointOneTwoThree :
    formatGrowthPercentage (some ((123 : ℝ) / 1000)) 1 = some "12.3%" := by
  rw [formatGrowthPercentage_eq_nonneg _ _ (by norm_num)]
  rw [show |(123 : ℝ) / 1000 * 100| = ((123 / 10 : ℚ) : ℝ) by push_cast; norm_num]
  rw [toFixedR_ratCast, toFixedQ_twelvePointThree]
  rfl

theorem format_negPointZeroFive :
    formatGrowthPercentage (some (-(5 : ℝ) / 100)) 1 = some "-5.0%" := by
  rw [formatGrowthPercentage_eq_neg _ _ (by norm_num)]
  rw [show |(-(5 : ℝ)) / 100 * 100| = ((5 : ℚ) : ℝ) by push_cast; norm_num]
  rw [toFixedR_ratCast, toFixedQ_five]
  rfl

theorem compute_exLong : computeCfsnGrowth exLong 5 = some 0 := by
  rw [computeCfsnGrowth_def, if_neg (by rw [sanitize_exLong]; norm_num), window_exLong,
    growthFromWindow_eq (2016, 100) [(2017, 100), (2018, 100), (2019, 100), (2020, 100)]
      (by simp) (by norm_num) (by norm_num [List.getLastD])]
  norm_num [List.getLastD]

/-! ## Permutation invariance of sanitization -/

theorem yearKeptB_congr {e₁ e₂ : List (Option YearValueEntry)}
    (h : List.Perm e₁ e₂) (y : ℚ) : yearKeptB e₁ y = yearKeptB e₂ y := by
  rw [Bool.eq_iff_iff]
  unfold yearKeptB
  rw [List.any_eq_true, List.any_eq_true]
  constructor
  · rintro ⟨e, he, hk⟩; exact ⟨e, h.mem_iff.mp he, hk⟩
  · rintro ⟨e, he, hk⟩; exact ⟨e, h.mem_iff.mpr he, hk⟩

theorem yearTotal_congr {e₁ e₂ : List (Option YearValueEntry)}
    (h : List.Perm e₁ e₂) (y : ℚ) : yearTotal e₁ y = yearTotal e₂ y :=
  (h.map (fun e => contribOf e y)).sum_eq

theorem sanitizeEntries_nodup (entries : List (Option YearValueEntry)) :
    (sanitizeEntries entries).Nodup :=
  (sanitizeEntries_sorted entries).imp fun h heq =>
    absurd (heq ▸ h) (lt_irrefl _)

/-- Sanitization is invariant under permutation of the input array: the
output is the strictly-sorted-by-year list determined by the per-year sums,
which do not depend on the input order. -/
theorem sanitizeEntries_congr {e₁ e₂ : List (Option YearValueEntry)}
    (h : List.Perm e₁ e₂) : sanitizeEntries e₁ = sanitizeEntries e₂ := by
  have hmem : ∀ a : ℚ × ℚ, a ∈ sanitizeEntries e₁ ↔ a ∈ sanitizeEntries e₂ := by
    rintro ⟨y, v⟩
    rw [mem_sanitizeEntries, mem_sanitizeEntries, yearKeptB_congr h y,
      yearTotal_congr h y]
  have hperm : List.Perm (sanitizeEntries e₁) (sanitizeEntries e₂) :=
    (List.perm_ext_iff_of_nodup (sanitizeEntries_nodup e₁)
      (sanitizeEntries_nodup e₂)).mpr hmem
  exact List.eq_of_perm_of_sorted hperm (sanitizeEntries_sorted e₁)
    (sanitizeEntries_sorted e₂)

/-! ## The textbook full-period CAGR (for the refinement claim)

`computeCAGR`'s doc comment cites the textbook formula
`CAGR = (Ending Value / Beginning Value)^(1/Number of Years) - 1`.
The following definition renders that formula over the WHOLE normalized
series (ending value = latest year, beginning value = earliest year,
number of years = their year difference), to be compared with what
`computeCAGR` actually computes. -/

/-- Textbook full-period CAGR over the whole normalized series, stated from
the spec's words; NOT the repository's computation. -/
noncomputable def textbookFullPeriodCagr
    (entries : List (Option YearValueEntry)) : Option ℝ :=
  match sanitizeEntries entries with
  | [] => none
  | f :: rest =>
    if rest = [] then
      none
    else
      let l := rest.getLastD f
      if f.2 ≤ 0 ∨ l.1 - f.1 ≤ 0 then
        none
      else
        some (((l.2 / f.2 : ℚ) : ℝ) ^ ((1 : ℝ) / ((l.1 - f.1 : ℚ) : ℝ)) - 1)

theorem textbook_exLong :
    textbookFullPeriodCagr exLong =
      some ((100 : ℝ) ^ ((1 : ℝ) / 5) - 1) := by
  unfold textbookFullPeriodCagr
  rw [sanitize_exLong]
  norm_num [List.getLastD]
  exact fun h => absurd h (by simp)

theorem sanitize_nil : sanitizeEntries [] = [] := rfl

theorem window_exConst : windowOf exConst 5 = [(2020, 5), (2021, 5)] := by
  unfold windowOf
  rw [sanitize_exConst]
  norm_num

/-- A shuffle of `exDup`, for the permutation-invariance witness. -/
def exDupShuffled : List (Option YearValueEntry) :=
  [entryFV 2021 300, entryFV 2020 50, entryFV 2020 100]

/-! ## The claims -/

/-- C1: the sanitization step of `computeCfsnGrowth` discards every entry
whose year or value is not a finite number or whose value is ≤ 0, sums the
values of all surviving entries sharing a year (additive, not last-wins),
and produces a series strictly ascending by year; in particular on
`[{2020,100},{2020,50},{2021,300}]` year 2020 is treated as value 150 and
the growth is 1.0. -/
theorem claim_C1 :
    (∀ entries : List (Option YearValueEntry),
      (sanitizeEntries entries).Pairwise yearLT ∧
      ∀ y v : ℚ, (y, v) ∈ sanitizeEntries entries ↔
        yearKeptB entries y = true ∧ v = yearTotal entries y) ∧
    sanitizeEntries exDup = [(2020, 150), (2021, 300)] ∧
    computeCfsnGrowth exDup MAX_YEARS_DEFAULT = some 1 :=
  ⟨fun entries => ⟨sanitizeEntries_sorted entries, mem_sanitizeEntries entries⟩,
   sanitize_exDup, compute_exDup⟩

/-- C2: on a window `first :: rest` of length ≥ 2, `computeCfsnGrowth`
returns `(last.value / first.value) ^ (1 / max (last.year - first.year,
n - 1)) - 1` where `n` is the window length; in particular the three-year
1000/1100/1210 scenario yields growth 1/10, formatted `"10.0%"`. -/
theorem claim_C2 :
    (∀ (entries : List (Option YearValueEntry)) (maxYears : ℤ)
      (f : ℚ × ℚ) (rest : List (ℚ × ℚ)),
      windowOf entries maxYears = f :: rest → rest ≠ [] →
      computeCfsnGrowth entries maxYears =
        some ((((rest.getLastD f).2 / f.2 : ℚ) : ℝ) ^
          ((1 : ℝ) /
            ((max ((rest.getLastD f).1 - f.1) ((rest.length : ℚ)) : ℚ) : ℝ)) - 1)) ∧
    computeCfsnGrowth exE2E 5 = some (1 / 10 : ℝ) ∧
    formatGrowthPercentage (some ((1 : ℝ) / 10)) 1 = some "10.0%" := by
  refine ⟨?_, compute_exE2E, format_tenth⟩
  intro entries maxYears f rest hw hne
  have hlen2 : 2 ≤ (windowOf entries maxYears).length := by
    have hr : 0 < rest.length := List.length_pos.mpr hne
    rw [hw, List.length_cons]
    omega
  have h2 : 2 ≤ (sanitizeEntries entries).length := by
    have hmin : 2 ≤ min (max maxYears 2).toNat (sanitizeEntries entries).length := by
      rw [← windowOf_length]
      exact hlen2
    exact le_trans hmin (min_le_right _ _)
  obtain ⟨f', rest', hw', _, _, _, heq⟩ :=
    computeCfsnGrowth_formula entries maxYears h2
  rw [hw] at hw'
  injection hw' with hf0 hr0
  subst hf0
  subst hr0
  exact heq

theorem claim_C2_witness :
    windowOf exConst 5 = (2020, 5) :: [(2021, 5)] ∧
    ([((2021 : ℚ), (5 : ℚ))] ≠ ([] : List (ℚ × ℚ))) ∧
    computeCfsnGrowth exConst 5 =
      some ((((List.getLastD [((2021 : ℚ), (5 : ℚ))] (2020, 5)).2 /
          ((2020 : ℚ), (5 : ℚ)).2 : ℚ) : ℝ) ^
        ((1 : ℝ) /
          ((max ((List.getLastD [((2021 : ℚ), (5 : ℚ))] (2020, 5)).1 -
              ((2020 : ℚ), (5 : ℚ)).1)
            (([((2021 : ℚ), (5 : ℚ))] : List (ℚ × ℚ)).length : ℚ) : ℚ) : ℝ)) - 1) :=
  ⟨window_exConst, by simp,
   claim_C2.1 exConst 5 (2020, 5) [(2021, 5)] window_exConst (by simp)⟩

/-- C3: the result is computed from exactly the last `max(maxYears, 2)`
entries of the normalized series: the window is a suffix of length
`min (max maxYears 2) length`, never fewer than 2 entries when the
normalized series has ≥ 2, and inputs with the same window give the same
result (entries before the window have no effect). -/
theorem claim_C3 :
    ∀ (entries : List (Option YearValueEntry)) (maxYears : ℤ),
      2 ≤ (sanitizeEntries entries).length →
      2 ≤ (windowOf entries maxYears).length ∧
      (windowOf entries maxYears).length =
        min (max maxYears 2).toNat (sanitizeEntries entries).length ∧
      (∃ pre, sanitizeEntries entries = pre ++ windowOf entries maxYears) ∧
      computeCfsnGrowth entries maxYears =
        growthFromWindow (windowOf entries maxYears) ∧
      ∀ entries₂ : List (Option YearValueEntry),
        2 ≤ (sanitizeEntries entries₂).length →
        windowOf entries₂ maxYears = windowOf entries maxYears →
        computeCfsnGrowth entries₂ maxYears = computeCfsnGrowth entries maxYears := by
  intro entries maxYears h2
  refine ⟨two_le_windowOf_length maxYears h2, windowOf_length entries maxYears,
    ⟨(sanitizeEntries entries).take _, (List.take_append_drop _ _).symm⟩, ?_, ?_⟩
  · rw [computeCfsnGrowth_def, if_neg (not_lt.mpr h2)]
  · intro e2 h2' hweq
    rw [computeCfsnGrowth_def, if_neg (not_lt.mpr h2'), hweq,
      computeCfsnGrowth_def, if_neg (not_lt.mpr h2)]

theorem claim_C3_witness :
    2 ≤ (sanitizeEntries exE2E).length ∧
    2 ≤ (windowOf exE2E 5).length ∧
    computeCfsnGrowth exE2E 5 = growthFromWindow (windowOf exE2E 5) := by
  have h2 : 2 ≤ (sanitizeEntries exE2E).length := by
    rw [sanitize_exE2E]
    norm_num
  exact ⟨h2, (claim_C3 exE2E 5 h2).1, (claim_C3 exE2E 5 h2).2.2.2.1⟩

/-- C4: whenever the sanitized series has fewer than 2 entries — including
the empty input and `[{2020,-50}]`, whose only entry is dropped — the
result is the `null` sentinel (and, the function being total, no exception
is possible). -/
theorem claim_C4 :
    (∀ (entries : List (Option YearValueEntry)) (maxYears : ℤ),
      (sanitizeEntries entries).length < 2 →
      computeCfsnGrowth entries maxYears = none) ∧
    computeCfsnGrowth [] MAX_YEARS_DEFAULT = none ∧
    computeCfsnGrowth exNeg MAX_YEARS_DEFAULT = none := by
  have hgen : ∀ (entries : List (Option YearValueEntry)) (maxYears : ℤ),
      (sanitizeEntries entries).length < 2 →
      computeCfsnGrowth entries maxYears = none := by
    intro entries maxYears h
    rw [computeCfsnGrowth_def, if_pos h]
  exact ⟨hgen, hgen [] _ (by rw [sanitize_nil]; norm_num),
    hgen exNeg _ (by rw [sanitize_exNeg]; norm_num)⟩

theorem claim_C4_witness :
    (sanitizeEntries exNeg).length < 2 ∧ computeCfsnGrowth exNeg 3 = none :=
  ⟨by rw [sanitize_exNeg]; norm_num,
   claim_C4.1 exNeg 3 (by rw [sanitize_exNeg]; norm_num)⟩

/-- C5: when every per-year summed value equals the same positive constant
and the sanitized series has at least two entries, the growth is exactly 0. -/
theorem claim_C5 :
    ∀ (entries : List (Option YearValueEntry)) (maxYears : ℤ) (c : ℚ),
      0 < c →
      (∀ p ∈ sanitizeEntries entries, p.2 = c) →
      2 ≤ (sanitizeEntries entries).length →
      computeCfsnGrowth entries maxYears = some 0 := by
  intro entries maxYears c hc hconst h2
  obtain ⟨f, rest, hw, _, _, _, heq⟩ := computeCfsnGrowth_formula entries maxYears h2
  have hwsub : ∀ p ∈ windowOf entries maxYears, p ∈ sanitizeEntries entries :=
    fun p hp => List.drop_subset _ _ hp
  have hfc : f.2 = c :=
    hconst f (hwsub f (by rw [hw]; exact List.mem_cons_self _ _))
  have hlc : (rest.getLastD f).2 = c :=
    hconst _ (hwsub _ (by rw [hw]; exact getLastD_mem_cons rest f))
  rw [heq, hlc, hfc, div_self (ne_of_gt hc)]
  norm_num

theorem claim_C5_witness :
    (0 : ℚ) < 5 ∧ (∀ p ∈ sanitizeEntries exConst, p.2 = 5) ∧
    2 ≤ (sanitizeEntries exConst).length ∧
    computeCfsnGrowth exConst 7 = some 0 := by
  have hconst : ∀ p ∈ sanitizeEntries exConst, p.2 = 5 := by
    rw [sanitize_exConst]
    decide
  exact ⟨by norm_num, hconst, by rw [sanitize_exConst]; norm_num,
    claim_C5 exConst 7 5 (by norm_num) hconst (by rw [sanitize_exConst]; norm_num)⟩

/-- C6: `computeCfsnGrowth` is invariant under permutation of its input
array, for every `maxYears`. -/
theorem claim_C6 :
    ∀ (entries₁ entries₂ : List (Option YearValueEntry)) (maxYears : ℤ),
      List.Perm entries₁ entries₂ →
      computeCfsnGrowth entries₁ maxYears = computeCfsnGrowth entries₂ maxYears := by
  intro e₁ e₂ maxYears h
  rw [computeCfsnGrowth_def, computeCfsnGrowth_def]
  unfold windowOf
  rw [sanitizeEntries_congr h]

theorem claim_C6_witness :
    List.Perm exDup exDupShuffled ∧
    computeCfsnGrowth exDup 5 = computeCfsnGrowth exDupShuffled 5 := by
  have hperm : List.Perm exDup exDupShuffled := by decide
  exact ⟨hperm, claim_C6 exDup exDupShuffled 5 hperm⟩

/-- C7: `formatGrowthPercentage` renders a growth rate as a percentage
string with the requested fraction digits (default 1), with a sign prefix
only for negative values; the sentinel passes through:
`0.123 ↦ "12.3%"`, `-0.05 ↦ "-5.0%"`, `none ↦ none`. -/
theorem claim_C7 :
    (∀ d : ℕ, formatGrowthPercentage none d = none) ∧
    (∀ g : Option ℝ, formatGrowthPercentageD g = formatGrowthPercentage g 1) ∧
    (∀ (g : ℝ) (d : ℕ), 0 ≤ g →
      formatGrowthPercentage (some g) d = some (toFixedR |g * 100| d ++ "%")) ∧
    (∀ (g : ℝ) (d : ℕ), g < 0 →
      formatGrowthPercentage (some g) d = some ("-" ++ toFixedR |g * 100| d ++ "%")) ∧
    formatGrowthPercentage (some ((123 : ℝ) / 1000)) 1 = some "12.3%" ∧
    formatGrowthPercentage (some (-(5 : ℝ) / 100)) 1 = some "-5.0%" :=
  ⟨fun _ => rfl, fun _ => rfl, formatGrowthPercentage_eq_nonneg,
   formatGrowthPercentage_eq_neg, format_pointOneTwoThree, format_negPointZeroFive⟩

theorem claim_C7_witness :
    (0 : ℝ) ≤ 0 ∧
    formatGrowthPercentage (some (0 : ℝ)) 2 = some (toFixedR |(0 : ℝ) * 100| 2 ++ "%") ∧
    (-(1 : ℝ)) < 0 ∧
    formatGrowthPercentage (some (-(1 : ℝ))) 2 =
      some ("-" ++ toFixedR |(-(1 : ℝ)) * 100| 2 ++ "%") :=
  ⟨le_refl 0, claim_C7.2.2.1 0 2 (le_refl 0), by norm_num,
   claim_C7.2.2.2.1 (-(1 : ℝ)) 2 (by norm_num)⟩

/-- C8: under exact real arithmetic, `computeCfsnGrowth` returns the null
sentinel iff the sanitized series has fewer than 2 entries: with ≥ 2
sanitized entries every later defensive guard passes, because sanitized
values are positive and the span is at least 1. -/
theorem claim_C8 :
    ∀ (entries : List (Option YearValueEntry)) (maxYears : ℤ),
      computeCfsnGrowth entries maxYears = none ↔
        (sanitizeEntries entries).length < 2 := by
  intro entries maxYears
  constructor
  · intro hnone
    by_contra hlt
    push_neg at hlt
    obtain ⟨f, rest, hw, _, _, _, heq⟩ :=
      computeCfsnGrowth_formula entries maxYears hlt
    rw [heq] at hnone
    simp at hnone
  · intro h
    rw [computeCfsnGrowth_def, if_pos h]

/-- C9: the exported `computeCAGR` is exactly `computeCfsnGrowth` at the
default 5-year window — not the textbook full-period CAGR over the whole
series, from which it differs on `exLong`. -/
theorem claim_C9 :
    (∀ entries : List (Option YearValueEntry),
      computeCAGR entries = computeCfsnGrowth entries 5) ∧
    computeCAGR exLong = some 0 ∧
    textbookFullPeriodCagr exLong ≠ computeCAGR exLong := by
  have hdef : ∀ entries : List (Option YearValueEntry),
      computeCAGR entries = computeCfsnGrowth entries 5 := fun _ => rfl
  refine ⟨hdef, ?_, ?_⟩
  · rw [hdef, compute_exLong]
  · rw [hdef, compute_exLong, textbook_exLong]
    intro hcontra
    have h1 : ((100 : ℝ) ^ ((1 : ℝ) / 5) - 1) = 0 := Option.some.inj hcontra
    have h2 : (1 : ℝ) < (100 : ℝ) ^ ((1 : ℝ) / 5) :=
      (Real.one_lt_rpow_iff_of_pos (by norm_num)).mpr
        (Or.inl ⟨by norm_num, by norm_num⟩)
    linarith

/-- C10: every non-null result of `computeCfsnGrowth` is a real number
strictly greater than -1, since the guarded ratio is positive and a
positive real to any real power is positive. -/
theorem claim_C10 :
    ∀ (entries : List (Option YearValueEntry)) (maxYears : ℤ) (g : ℝ),
      computeCfsnGrowth entries maxYears = some g → -1 < g := by
  intro entries maxYears g hg
  by_cases h2 : 2 ≤ (sanitizeEntries entries).length
  · obtain ⟨f, rest, hw, _, hf, hl, heq⟩ :=
      computeCfsnGrowth_formula entries maxYears h2
    rw [heq] at hg
    have hgval := Option.some.inj hg
    have hratio : (0 : ℝ) < (((rest.getLastD f).2 / f.2 : ℚ) : ℝ) := by
      rw [Rat.cast_pos]
      exact div_pos hl hf
    have hpow := Real.rpow_pos_of_pos hratio
      ((1 : ℝ) / ((max ((rest.getLastD f).1 - f.1) ((rest.length : ℚ)) : ℚ) : ℝ))
    rw [← hgval]
    linarith
  · rw [computeCfsnGrowth_def, if_pos (not_le.mp h2)] at hg
    simp at hg

theorem claim_C10_witness :
    computeCfsnGrowth exDup 5 = some 1 ∧ (-1 : ℝ) < 1 :=
  ⟨compute_exDup, claim_C10 exDup 5 1 compute_exDup⟩
